import Mathlib

/-!
Verification of the finance-tracker core (models.py, currency.py, app.py)
against its natural-language specification.

Modelling conventions:
* Python floats are embedded as rationals (`ℚ`), except where the source
  raises a float to a fractional power, which is embedded in `ℝ` with
  real exponentiation.
* Python dates are embedded as a day number (the proleptic ordinal) plus
  the calendar fields that SQL `extract` reads; `(d1 - d2).days` becomes
  subtraction of day numbers.
* Database rows become structures; a query over an account's transactions
  becomes a `List` argument; SQL `coalesce(sum(..), 0)` becomes `List.sum`
  (which is `0` on the empty list).
* The process-wide exchange-rate cache becomes explicit state passing, and
  the HTTP fetch inside `get_exchange_rate` becomes an explicit outcome
  argument describing what the network layer would return.
-/

namespace FinanceTracker

/-- Calendar date: `dayNumber` is the proleptic ordinal used for date
subtraction, `year` and `month` are the fields read by SQL extract. -/
structure Date where
  dayNumber : Int
  year : Int
  month : Nat
deriving DecidableEq, Repr

/-- Row of the transactions table (models.py `Transaction`): signed full
amount, optional personal share, category label and transaction date. -/
structure Transaction where
  account_id : Nat
  amount : ℚ
  my_share : Option ℚ
  description : String
  category : String
  transaction_date : Date
deriving DecidableEq, Repr

/-- models.py `Transaction.personal_amount`: `my_share` when it is not NULL,
otherwise the full `amount`. -/
def Transaction.personal_amount (t : Transaction) : ℚ :=
  match t.my_share with
  | some s => s
  | none => t.amount

/-- Row of the accounts table (models.py `Account`), with the fields the
verified operations read. -/
structure Account where
  name : String
  account_type : String
  currency : String
  initial_balance : ℚ
deriving DecidableEq, Repr

/-- models.py `Account.current_balance`: `initial_balance` plus the coalesced
SQL sum of the amounts of the account's transactions, passed here as a list. -/
def Account.current_balance (a : Account) (ts : List Transaction) : ℚ :=
  a.initial_balance + (ts.map Transaction.amount).sum

/-- Row of the fixed_deposits table (models.py `FixedDeposit`). -/
structure FixedDeposit where
  account_id : Nat
  principal : ℚ
  interest_rate : ℚ
  start_date : Date
  maturity_date : Date
  bank_name : Option String
  fd_number : Option String
  is_matured : Bool
deriving DecidableEq, Repr

/-- models.py `FixedDeposit.maturity_value`: quarterly compound interest
over a fixed 365-day year, `principal * (1 + rate/n)^(n*years)` with
`rate = interest_rate/100`, `n = 4`, `years = days/365.0`. The float power
with fractional exponent is embedded as real exponentiation. -/
noncomputable def FixedDeposit.maturity_value (fd : FixedDeposit) : ℝ :=
  let days : Int := fd.maturity_date.dayNumber - fd.start_date.dayNumber
  let years : ℝ := (days : ℝ) / 365.0
  let rate : ℝ := (fd.interest_rate : ℝ) / 100
  let n : ℝ := 4
  (fd.principal : ℝ) * ((1 + rate / n) ^ (n * years))

/-- models.py `FixedDeposit.interest_earned`: maturity value minus principal. -/
noncomputable def FixedDeposit.interest_earned (fd : FixedDeposit) : ℝ :=
  fd.maturity_value - (fd.principal : ℝ)

/-- models.py `FixedDeposit.days_to_maturity`, as a function of today's
date: 0 once matured, otherwise the day difference floored at 0. -/
def FixedDeposit.days_to_maturity (fd : FixedDeposit) (today : Date) : Int :=
  if fd.is_matured then 0
  else max 0 (fd.maturity_date.dayNumber - today.dayNumber)

/-- currency.py `DEFAULT_EXCHANGE_RATE`: hardcoded fallback, 1 USD = 83 INR. -/
def DEFAULT_EXCHANGE_RATE : ℚ := 83

/-- currency.py `convert_currency`, with the USD-to-INR rate passed
explicitly (the source reads it from `get_exchange_rate`). Identical
currencies return the amount unchanged without consulting the rate. -/
def convert_currency (rate : ℚ) (amount : ℚ) (from_currency to_currency : String) : ℚ :=
  if from_currency = to_currency then amount
  else if from_currency = "USD" ∧ to_currency = "INR" then amount * rate
  else if from_currency = "INR" ∧ to_currency = "USD" then amount / rate
  else amount

/-- currency.py module-level `_rate_cache`: the cached rate and the time of
the last successful update (seconds, as an integer timestamp). -/
structure RateCache where
  rate : ℚ
  last_updated : Option Int
deriving DecidableEq, Repr

/-- Initial state of the cache at module load: default rate, never updated. -/
def initialRateCache : RateCache :=
  { rate := DEFAULT_EXCHANGE_RATE, last_updated := none }

/-- Outcome of the HTTP fetch inside `get_exchange_rate`.
`netError` is a raised exception from the request itself;
`response status body` is an HTTP response, where `body = none` means the
JSON decode raises, and `body = some inr` carries the optional value found
at `rates.INR` in the decoded payload. -/
inductive FetchResult where
  | netError : FetchResult
  | response : Nat → Option (Option ℚ) → FetchResult
deriving DecidableEq, Repr

/-- Fetch-and-cache path of currency.py `get_exchange_rate` (the code after
the freshness check): on a 200 response with decodable JSON the rate —
defaulting to `DEFAULT_EXCHANGE_RATE` when `rates.INR` is absent — is
stored with the current time and returned; every other outcome falls
through to returning the cached rate with the cache untouched. -/
def fetchAndCache (now : Int) (fetch : FetchResult) (c : RateCache) : ℚ × RateCache :=
  match fetch with
  | .netError => (c.rate, c)
  | .response status body =>
    if status = 200 then
      match body with
      | none => (c.rate, c)
      | some inr =>
        let rate := inr.getD DEFAULT_EXCHANGE_RATE
        (rate, { rate := rate, last_updated := some now })
    else (c.rate, c)

/-- Freshness check of currency.py `get_exchange_rate`: true when the cache
was updated less than one hour (3600 seconds) ago. -/
def cacheFresh (now : Int) (c : RateCache) : Bool :=
  match c.last_updated with
  | some t => now - t < 3600
  | none => false

/-- currency.py `get_exchange_rate` as a state transition on the cache,
parameterised by the current time and by the outcome the HTTP layer would
produce if consulted. Total: no branch propagates an exception. -/
def get_exchange_rate (now : Int) (fetch : FetchResult) (c : RateCache) : ℚ × RateCache :=
  if cacheFresh now c then (c.rate, c)
  else fetchAndCache now fetch c

/-- Validated form data of app.py `add_transaction` (forms.py
`TransactionForm`): transaction type is the string "income" or "expense". -/
structure TransactionFormData where
  account_id : Nat
  transaction_type : String
  amount : ℚ
  my_share : Option ℚ
  description : String
  category : String
  transaction_date : Date
deriving DecidableEq, Repr

/-- app.py `add_transaction` (the row-building part): the amount is the
absolute value of the input, negated for expenses; `my_share` is stored
only when provided and nonzero, with the same sign rule, and a zero input
share is stored as NULL. -/
def add_transaction (f : TransactionFormData) : Transaction :=
  let amount0 := |f.amount|
  let amount := if f.transaction_type = "expense" then -amount0 else amount0
  let my_share : Option ℚ :=
    match f.my_share with
    | some s =>
      if s ≠ 0 then
        let m := |s|
        some (if f.transaction_type = "expense" then -m else m)
      else none
    | none => none
  { account_id := f.account_id
    amount := amount
    my_share := my_share
    description := f.description
    category := f.category
    transaction_date := f.transaction_date }

/-- Validated form data of app.py `transfer` (forms.py `TransferForm`). -/
structure TransferFormData where
  from_account_id : Nat
  to_account_id : Nat
  amount : ℚ
  description : String
  transfer_date : Date
deriving DecidableEq, Repr

/-- app.py `transfer`: the pair (outgoing, incoming) of rows added and
committed together. The outgoing row carries the negated absolute amount
on the source account, the incoming row the positive amount on the
destination; both are tagged category "transfer" and dated with the form's
transfer date. `from_name` and `to_name` are the account names interpolated
into the descriptions. -/
def transfer (f : TransferFormData) (from_name to_name : String) :
    Transaction × Transaction :=
  let amount := |f.amount|
  let description := if f.description = "" then "Transfer" else f.description
  let outgoing : Transaction :=
    { account_id := f.from_account_id
      amount := -amount
      my_share := none
      description := "Transfer to " ++ to_name ++ ": " ++ description
      category := "transfer"
      transaction_date := f.transfer_date }
  let incoming : Transaction :=
    { account_id := f.to_account_id
      amount := amount
      my_share := none
      description := "Transfer from " ++ from_name ++ ": " ++ description
      category := "transfer"
      transaction_date := f.transfer_date }
  (outgoing, incoming)

/-- app.py `update_balance`: rejected (redirect, modelled as `none`) unless
the account type is "investment"; otherwise the target balance is converted
to the account's currency when entered in a different one, and
`initial_balance` is set to the converted target minus the coalesced sum of
the account's transaction amounts. -/
def update_balance (a : Account) (ts : List Transaction) (new_balance : ℚ)
    (input_currency : String) (rate : ℚ) : Option Account :=
  if a.account_type ≠ "investment" then none
  else
    let nb := if input_currency ≠ a.currency
              then convert_currency rate new_balance input_currency a.currency
              else new_balance
    let transactions_sum := (ts.map Transaction.amount).sum
    some { a with initial_balance := nb - transactions_sum }

/-- Report accumulator of the app.py `monthly_report` loop: per-category
absolute expenses (an insertion-ordered association list, as a Python dict),
running income total and running (negative) expense total. -/
structure ReportAcc where
  expenses_by_category : List (String × ℚ)
  total_income : ℚ
  total_expenses : ℚ
deriving DecidableEq, Repr

/-- Dict update `expenses_by_category[cat] += v` with default 0: adds `v` to
the entry for `cat`, appending a new entry when absent (insertion order). -/
def addToCategory : List (String × ℚ) → String → ℚ → List (String × ℚ)
  | [], cat, v => [(cat, v)]
  | (c, w) :: rest, cat, v =>
    if c = cat then (c, w + v) :: rest else (c, w) :: addToCategory rest cat v

/-- Personal amount as the monthly_report loop sees it: converted from INR
to USD when the transaction's account is an INR account (`currencyOf` is
the account-to-currency map built from the user's accounts). -/
def convertedPersonal (rate : ℚ) (currencyOf : Nat → String) (t : Transaction) : ℚ :=
  if currencyOf t.account_id = "INR"
  then convert_currency rate t.personal_amount "INR" "USD"
  else t.personal_amount

/-- Loop body of app.py `monthly_report`: positive non-transfer personal
amounts accrue to income; negative non-transfer ones accrue to the expense
total and, in absolute value, to their category's entry; transfers and
zero amounts are skipped. -/
def reportStep (rate : ℚ) (currencyOf : Nat → String) (acc : ReportAcc)
    (t : Transaction) : ReportAcc :=
  if 0 < convertedPersonal rate currencyOf t ∧ t.category ≠ "transfer" then
    { acc with total_income := acc.total_income + convertedPersonal rate currencyOf t }
  else if convertedPersonal rate currencyOf t < 0 ∧ t.category ≠ "transfer" then
    { expenses_by_category :=
        addToCategory acc.expenses_by_category t.category
          (abs (convertedPersonal rate currencyOf t))
      total_income := acc.total_income
      total_expenses := acc.total_expenses + convertedPersonal rate currencyOf t }
  else acc

/-- Month filter of app.py `monthly_report`: the transactions whose date has
the requested month and year (the SQL extract filter). -/
def monthlyOf (ts : List Transaction) (m : Nat) (y : Int) : List Transaction :=
  ts.filter fun t => t.transaction_date.month == m && t.transaction_date.year == y

/-- Accumulator state after running the monthly_report loop over the
month's transactions, starting from empty aggregates. -/
def monthlyAcc (rate : ℚ) (currencyOf : Nat → String) (ts : List Transaction)
    (m : Nat) (y : Int) : ReportAcc :=
  (monthlyOf ts m y).foldl (reportStep rate currencyOf) ⟨[], 0, 0⟩

/-- Values rendered by app.py `monthly_report`: income total, the absolute
value of the (negative) expense total, their net, and the per-category
expense table. -/
structure MonthlyReport where
  total_income : ℚ
  total_expenses : ℚ
  net : ℚ
  expenses_by_category : List (String × ℚ)
deriving DecidableEq, Repr

/-- app.py `monthly_report` end to end over the user's transactions. -/
def monthly_report (rate : ℚ) (currencyOf : Nat → String) (ts : List Transaction)
    (m : Nat) (y : Int) : MonthlyReport :=
  { total_income := (monthlyAcc rate currencyOf ts m y).total_income
    total_expenses := |(monthlyAcc rate currencyOf ts m y).total_expenses|
    net := (monthlyAcc rate currencyOf ts m y).total_income
             + (monthlyAcc rate currencyOf ts m y).total_expenses
    expenses_by_category := (monthlyAcc rate currencyOf ts m y).expenses_by_category }

/-- Spec-side predicate: a non-transfer transaction with positive personal
amount (sign taken on the stored, unconverted personal amount). -/
def specIncomeTx (t : Transaction) : Bool :=
  decide (0 < t.personal_amount ∧ t.category ≠ "transfer")

/-- Spec-side predicate: a non-transfer transaction with negative personal
amount (sign taken on the stored, unconverted personal amount). -/
def specExpenseTx (t : Transaction) : Bool :=
  decide (t.personal_amount < 0 ∧ t.category ≠ "transfer")

/-- Code-side predicate: the monthly_report loop's income branch condition,
on the converted personal amount. -/
def stepIncomeTx (rate : ℚ) (currencyOf : Nat → String) (t : Transaction) : Bool :=
  decide (0 < convertedPersonal rate currencyOf t ∧ t.category ≠ "transfer")

/-- Code-side predicate: the monthly_report loop's expense branch condition,
on the converted personal amount. -/
def stepExpenseTx (rate : ℚ) (currencyOf : Nat → String) (t : Transaction) : Bool :=
  decide (convertedPersonal rate currencyOf t < 0 ∧ t.category ≠ "transfer")

/-- Personal amount as the spec phrases the claim: `my_share` when present
and nonzero, the full amount otherwise (also when the share is exactly 0). -/
def spec_personal_amount (t : Transaction) : ℚ :=
  match t.my_share with
  | some s => if s ≠ 0 then s else t.amount
  | none => t.amount

/-- Spec-side failure predicate for the rate fetch, as the claim reads:
network error, non-200 response, or malformed payload (a body whose JSON
cannot be decoded, or decodes without a `rates.INR` entry). -/
def specFetchFailure : FetchResult → Bool
  | .netError => true
  | .response status body =>
    if status = 200 then
      match body with
      | none => true
      | some none => true
      | some (some _) => false
    else true

/-- Failure outcomes on which the code really does retain the cache: a
raised request, an undecodable body, or any non-200 status. A 200 response
whose payload merely lacks `rates.INR` is not among them. -/
def hardFetchFailure : FetchResult → Bool
  | .netError => true
  | .response _ none => true
  | .response status (some _) => status != 200

/-- Validated form data of app.py `edit_fixed_deposit` (forms.py
`EditFixedDepositForm`): the status select field carries "0" or "1". -/
structure EditFixedDepositFormData where
  account_id : Nat
  bank_name : String
  fd_number : String
  is_matured : String
deriving DecidableEq, Repr

/-- app.py `edit_fixed_deposit` (the write-back on a valid submit): only
the linked account, bank name, FD number and matured flag are assigned;
empty strings become NULL through the source's `or None`. -/
def edit_fixed_deposit (fd : FixedDeposit) (f : EditFixedDepositFormData) :
    FixedDeposit :=
  { fd with
    account_id := f.account_id
    bank_name := if f.bank_name = "" then none else some f.bank_name
    fd_number := if f.fd_number = "" then none else some f.fd_number
    is_matured := f.is_matured == "1" }

/-! Theorems. -/

/-- C1: for every account, the current balance is the initial balance plus
the sum of the amounts of its transactions, and with no transactions it is
the initial balance unchanged. -/
theorem c1_current_balance (a : Account) (ts : List Transaction) :
    a.current_balance ts = a.initial_balance + (ts.map Transaction.amount).sum
    ∧ a.current_balance [] = a.initial_balance := by
  refine ⟨rfl, ?_⟩
  simp [Account.current_balance]

/-- C2: the maturity value of a fixed deposit is
principal * (1 + (interest_rate/100)/4)^(4 * (days/365.0)) with
days = maturity_date - start_date, and the interest earned is the maturity
value minus the principal. -/
theorem c2_maturity_value (fd : FixedDeposit) :
    fd.maturity_value = (fd.principal : ℝ) *
      (1 + ((fd.interest_rate : ℝ) / 100) / 4) ^
        (4 * (((fd.maturity_date.dayNumber - fd.start_date.dayNumber : ℤ) : ℝ) / 365))
    ∧ fd.interest_earned = fd.maturity_value - (fd.principal : ℝ) := by
  refine ⟨?_, rfl⟩
  show (fd.principal : ℝ) *
      (1 + ((fd.interest_rate : ℝ) / 100) / 4) ^
        ((4 : ℝ) * (((fd.maturity_date.dayNumber - fd.start_date.dayNumber : ℤ) : ℝ) / 365.0)) = _
  norm_num

/-- C3: the personal amount of a transaction is `my_share` when present and
nonzero and the full amount otherwise; this holds for every transaction
whose stored share is not exactly zero, and the input-handling layer
(`add_transaction`) never stores a share of exactly zero. -/
theorem c3_personal_amount :
    (∀ t : Transaction, t.my_share ≠ some 0 →
        t.personal_amount = spec_personal_amount t)
    ∧ (∀ f : TransactionFormData, (add_transaction f).my_share ≠ some 0) := by
  constructor
  · intro t h
    unfold Transaction.personal_amount spec_personal_amount
    cases hm : t.my_share with
    | none => rfl
    | some s =>
      rw [hm] at h
      have hs : s ≠ 0 := fun h0 => h (by rw [h0])
      simp [hs]
  · intro f
    unfold add_transaction
    cases hm : f.my_share with
    | none => simp
    | some s =>
      by_cases hs : s = 0
      · simp [hs]
      · simp only [hs, ne_eq, not_false_eq_true, if_true]
        split
        · simp only [Option.some.injEq]
          intro h
          have : |s| = 0 := by linarith [abs_nonneg s, neg_eq_iff_eq_neg.mp h]
          exact hs (abs_eq_zero.mp this)
        · simp only [Option.some.injEq]
          intro h
          exact hs (abs_eq_zero.mp h)

/-- Witness for C3 at a concrete transaction with a nonzero stored share. -/
theorem c3_personal_amount_witness :
    Transaction.personal_amount
        { account_id := 1, amount := -5, my_share := some (-2), description := "lunch",
          category := "dining", transaction_date := ⟨739000, 2024, 5⟩ }
      = spec_personal_amount
        { account_id := 1, amount := -5, my_share := some (-2), description := "lunch",
          category := "dining", transaction_date := ⟨739000, 2024, 5⟩ } :=
  c3_personal_amount.1 _ (by simp)

/-- C5: a transfer creates exactly two transactions, the outgoing amount is
the negation of the incoming amount, both rows carry category "transfer",
and both carry the same date. -/
theorem c5_transfer (f : TransferFormData) (from_name to_name : String) :
    (transfer f from_name to_name).1.amount
        = -(transfer f from_name to_name).2.amount
    ∧ (transfer f from_name to_name).1.category = "transfer"
    ∧ (transfer f from_name to_name).2.category = "transfer"
    ∧ (transfer f from_name to_name).1.transaction_date
        = (transfer f from_name to_name).2.transaction_date :=
  ⟨rfl, rfl, rfl, rfl⟩

/-- C9: days to maturity is never negative, and is exactly zero whenever
the deposit is flagged matured, for every value of today's date. -/
theorem c9_days_to_maturity (fd : FixedDeposit) (today : Date) :
    0 ≤ fd.days_to_maturity today
    ∧ (fd.is_matured = true → fd.days_to_maturity today = 0) := by
  constructor
  · unfold FixedDeposit.days_to_maturity
    split
    · exact le_refl 0
    · exact le_max_left 0 _
  · intro h
    simp [FixedDeposit.days_to_maturity, h]

/-- Witness for C9 at a matured deposit whose maturity date is far in the
future relative to today. -/
theorem c9_days_to_maturity_witness :
    0 ≤ FixedDeposit.days_to_maturity
          { account_id := 2, principal := 100000, interest_rate := 7,
            start_date := ⟨738000, 2022, 1⟩, maturity_date := ⟨739500, 2026, 3⟩,
            bank_name := none, fd_number := none, is_matured := true } ⟨738100, 2022, 4⟩
    ∧ FixedDeposit.days_to_maturity
          { account_id := 2, principal := 100000, interest_rate := 7,
            start_date := ⟨738000, 2022, 1⟩, maturity_date := ⟨739500, 2026, 3⟩,
            bank_name := none, fd_number := none, is_matured := true } ⟨738100, 2022, 4⟩ = 0 :=
  ⟨(c9_days_to_maturity _ _).1, (c9_days_to_maturity _ _).2 rfl⟩

/-- C10: editing a fixed deposit leaves the principal, interest rate, start
date and maturity date unchanged; only the linked account, bank name, FD
number and matured flag are assigned from the form. -/
theorem c10_edit_fixed_deposit (fd : FixedDeposit) (f : EditFixedDepositFormData) :
    (edit_fixed_deposit fd f).principal = fd.principal
    ∧ (edit_fixed_deposit fd f).interest_rate = fd.interest_rate
    ∧ (edit_fixed_deposit fd f).start_date = fd.start_date
    ∧ (edit_fixed_deposit fd f).maturity_date = fd.maturity_date
    ∧ (edit_fixed_deposit fd f).account_id = f.account_id
    ∧ (edit_fixed_deposit fd f).is_matured = (f.is_matured == "1") :=
  ⟨rfl, rfl, rfl, rfl, rfl, rfl⟩

/-- Conversion from USD to INR multiplies by the rate. -/
theorem convert_currency_usd_inr (rate x : ℚ) :
    convert_currency rate x "USD" "INR" = x * rate := by
  unfold convert_currency
  rw [if_neg (by decide), if_pos ⟨rfl, rfl⟩]

/-- Conversion from INR to USD divides by the rate. -/
theorem convert_currency_inr_usd (rate x : ℚ) :
    convert_currency rate x "INR" "USD" = x / rate := by
  unfold convert_currency
  rw [if_neg (by decide), if_neg (by decide), if_pos ⟨rfl, rfl⟩]

/-- Conversion between identical currencies is the identity, exactly. -/
theorem convert_currency_same (rate x : ℚ) (c : String) :
    convert_currency rate x c c = x := by
  unfold convert_currency
  rw [if_pos rfl]

/-- C7 counterexample: with a zero rate — a value the converter can be
handed, since a fetched `rates.INR` entry is used as-is — the USD→INR→USD
round trip of the input 1 does not return anything near 1. In the Python
source the second conversion raises ZeroDivisionError; in this embedding
division by zero yields 0; on either semantics the round trip is not ≈ 1. -/
theorem c7_counterexample :
    convert_currency 0 (convert_currency 0 1 "USD" "INR") "INR" "USD" ≠ 1 := by
  rw [convert_currency_usd_inr, convert_currency_inr_usd]
  norm_num

/-- C7 (amended): for every nonzero rate, the USD→INR→USD round trip is the
identity — exact in this rational embedding, hence within floating-point
tolerance — for every finite x including 0 and negative values, and
converting between identical currencies returns the amount exactly for
both USD and INR. -/
theorem c7_convert_roundtrip (rate : ℚ) (hr : rate ≠ 0) (x : ℚ) :
    convert_currency rate (convert_currency rate x "USD" "INR") "INR" "USD" = x
    ∧ convert_currency rate x "USD" "USD" = x
    ∧ convert_currency rate x "INR" "INR" = x := by
  refine ⟨?_, convert_currency_same rate x "USD", convert_currency_same rate x "INR"⟩
  rw [convert_currency_usd_inr, convert_currency_inr_usd]
  field_simp

/-- Witness for C7 at the default rate 83, on a positive, a negative and a
zero amount. -/
theorem c7_convert_roundtrip_witness :
    convert_currency 83 (convert_currency 83 7 "USD" "INR") "INR" "USD" = 7
    ∧ convert_currency 83 (-3) "USD" "USD" = -3
    ∧ convert_currency 83 0 "INR" "INR" = 0 :=
  ⟨(c7_convert_roundtrip 83 (by norm_num) 7).1,
   (c7_convert_roundtrip 83 (by norm_num) (-3)).2.1,
   (c7_convert_roundtrip 83 (by norm_num) 0).2.2⟩

/-- C6: the balance correction is rejected for every account whose type is
not "investment"; for investment accounts the target balance, converted to
the account's currency when entered in a different one, becomes exactly
the current balance after the update. -/
theorem c6_update_balance (a : Account) (ts : List Transaction) (B : ℚ)
    (input_currency : String) (rate : ℚ) :
    (a.account_type ≠ "investment" → update_balance a ts B input_currency rate = none)
    ∧ (a.account_type = "investment" →
        ∃ a2, update_balance a ts B input_currency rate = some a2
          ∧ a2.current_balance ts
              = (if input_currency ≠ a.currency
                 then convert_currency rate B input_currency a.currency else B)) := by
  constructor
  · intro h
    unfold update_balance
    rw [if_pos h]
  · intro h
    refine ⟨{ a with initial_balance :=
        (if input_currency ≠ a.currency
         then convert_currency rate B input_currency a.currency else B)
          - (ts.map Transaction.amount).sum }, ?_, ?_⟩
    · unfold update_balance
      rw [if_neg (fun hn => hn h)]
    · show (if input_currency ≠ a.currency
             then convert_currency rate B input_currency a.currency else B)
          - (ts.map Transaction.amount).sum + (ts.map Transaction.amount).sum = _
      ring

/-- Witness for C6: a checking account is rejected; an investment account
with one transaction of amount 5 ends with current balance exactly 50. -/
theorem c6_update_balance_witness :
    update_balance ⟨"cash", "checking", "USD", 10⟩ [] 50 "USD" 83 = none
    ∧ ∃ a2, update_balance ⟨"brokerage", "investment", "USD", 10⟩
          [⟨3, 5, none, "buy", "other", ⟨739000, 2024, 5⟩⟩] 50 "USD" 83 = some a2
        ∧ a2.current_balance [⟨3, 5, none, "buy", "other", ⟨739000, 2024, 5⟩⟩] = 50 := by
  constructor
  · exact (c6_update_balance _ _ _ _ _).1 (by decide)
  · obtain ⟨a2, h1, h2⟩ := (c6_update_balance ⟨"brokerage", "investment", "USD", 10⟩
      [⟨3, 5, none, "buy", "other", ⟨739000, 2024, 5⟩⟩] 50 "USD" 83).2 rfl
    rw [if_neg (fun hn => hn rfl)] at h2
    exact ⟨a2, h1, h2⟩

/-- Retention helper: on a raised request, an undecodable body, or any
non-200 response, the rate getter returns the cached rate and leaves the
cache exactly as it was. -/
theorem get_exchange_rate_hard_failure (now : Int) (fetch : FetchResult)
    (c : RateCache) (h : hardFetchFailure fetch = true) :
    get_exchange_rate now fetch c = (c.rate, c) := by
  have hfac : fetchAndCache now fetch c = (c.rate, c) := by
    cases fetch with
    | netError => rfl
    | response status body =>
      cases body with
      | none => by_cases h200 : status = 200 <;> simp [fetchAndCache, h200]
      | some b =>
        have hs : status ≠ 200 := by simpa [hardFetchFailure] using h
        simp [fetchAndCache, hs]
  unfold get_exchange_rate
  rw [hfac]
  split <;> rfl

/-- C8 counterexample: with a stale cache holding a previously fetched rate
of 85, a 200 response whose payload lacks the INR entry — a malformed
payload in the claim's taxonomy — makes the getter return (and cache) the
hardcoded default 83 instead of retaining the cached 85. -/
theorem c8_counterexample :
    ¬ (∀ (now : Int) (fetch : FetchResult) (c : RateCache),
        specFetchFailure fetch = true →
        (get_exchange_rate now fetch c).1 = c.rate) := by
  intro h
  have h85 := h 7200 (.response 200 (some none)) ⟨85, some 0⟩ rfl
  have hval : get_exchange_rate 7200 (.response 200 (some none)) ⟨85, some 0⟩
      = (83, ⟨83, some 7200⟩) := by decide
  rw [hval] at h85
  exact absurd h85 (by norm_num)

/-- C8 (amended): the getter returns the cached rate with the cache
untouched — independently of any fetch outcome — whenever the cache is
less than one hour old; on a raised request, an undecodable body or any
non-200 response it retains and returns the previous cached value; on a
200 response whose decoded payload lacks the INR entry it stores and
returns the hardcoded default 83 instead; and when no fetch has ever
succeeded (the initial cache) a failing fetch yields the default 83. The
function is total, so no fetch failure propagates as an exception. -/
theorem c8_get_exchange_rate (now : Int) (fetch : FetchResult) (c : RateCache) :
    (cacheFresh now c = true → get_exchange_rate now fetch c = (c.rate, c))
    ∧ (hardFetchFailure fetch = true → get_exchange_rate now fetch c = (c.rate, c))
    ∧ (cacheFresh now c = false →
        get_exchange_rate now (.response 200 (some none)) c
          = (DEFAULT_EXCHANGE_RATE,
             { rate := DEFAULT_EXCHANGE_RATE, last_updated := some now }))
    ∧ (hardFetchFailure fetch = true →
        (get_exchange_rate now fetch initialRateCache).1 = DEFAULT_EXCHANGE_RATE) := by
  refine ⟨?_, ?_, ?_, ?_⟩
  · intro h
    unfold get_exchange_rate
    rw [h]
    rfl
  · exact get_exchange_rate_hard_failure now fetch c
  · intro h
    unfold get_exchange_rate
    rw [h]
    rfl
  · intro h
    rw [get_exchange_rate_hard_failure now fetch initialRateCache h]
    rfl

/-- Witness for C8 (amended): a fresh cache is returned as-is under a
network error; a stale cache is overwritten with the default 83 by a
malformed 200 payload; the initial cache yields 83 under a network error. -/
theorem c8_get_exchange_rate_witness :
    get_exchange_rate 100 .netError ⟨85, some 0⟩ = (85, ⟨85, some 0⟩)
    ∧ get_exchange_rate 5000 (.response 200 (some none)) ⟨85, some 0⟩
        = (83, ⟨83, some 5000⟩)
    ∧ (get_exchange_rate 0 .netError initialRateCache).1 = 83 :=
  ⟨(c8_get_exchange_rate 100 .netError ⟨85, some 0⟩).1 (by decide),
   (c8_get_exchange_rate 5000 .netError ⟨85, some 0⟩).2.2.1 (by decide),
   (c8_get_exchange_rate 0 .netError initialRateCache).2.2.2 rfl⟩

/-- Income branch equation of the report loop. -/
theorem reportStep_income (rate : ℚ) (currencyOf : Nat → String) (acc : ReportAcc)
    (t : Transaction)
    (h1 : 0 < convertedPersonal rate currencyOf t ∧ t.category ≠ "transfer") :
    reportStep rate currencyOf acc t
      = { acc with total_income :=
            acc.total_income + convertedPersonal rate currencyOf t } := by
  unfold reportStep
  rw [if_pos h1]

/-- Expense branch equation of the report loop. -/
theorem reportStep_expense (rate : ℚ) (currencyOf : Nat → String) (acc : ReportAcc)
    (t : Transaction)
    (h1 : ¬(0 < convertedPersonal rate currencyOf t ∧ t.category ≠ "transfer"))
    (h2 : convertedPersonal rate currencyOf t < 0 ∧ t.category ≠ "transfer") :
    reportStep rate currencyOf acc t
      = ⟨addToCategory acc.expenses_by_category t.category
            (abs (convertedPersonal rate currencyOf t)),
         acc.total_income,
         acc.total_expenses + convertedPersonal rate currencyOf t⟩ := by
  unfold reportStep
  rw [if_neg h1, if_pos h2]

/-- Skip branch equation of the report loop: transfers and zero personal
amounts leave the accumulator unchanged. -/
theorem reportStep_skip (rate : ℚ) (currencyOf : Nat → String) (acc : ReportAcc)
    (t : Transaction)
    (h1 : ¬(0 < convertedPersonal rate currencyOf t ∧ t.category ≠ "transfer"))
    (h2 : ¬(convertedPersonal rate currencyOf t < 0 ∧ t.category ≠ "transfer")) :
    reportStep rate currencyOf acc t = acc := by
  unfold reportStep
  rw [if_neg h1, if_neg h2]

/-- Adding to a category entry raises the total of the expense table by the
added value, whether the key is already present or appended. -/
theorem addToCategory_snd_sum (l : List (String × ℚ)) (cat : String) (v : ℚ) :
    ((addToCategory l cat v).map Prod.snd).sum = (l.map Prod.snd).sum + v := by
  induction l with
  | nil => simp [addToCategory]
  | cons p rest ih =>
    obtain ⟨c, w⟩ := p
    by_cases hc : c = cat
    · simp only [addToCategory, if_pos hc, List.map_cons, List.sum_cons]
      ring
    · simp only [addToCategory, if_neg hc, List.map_cons, List.sum_cons, ih]
      ring

/-- Running the report loop adds, to the income total, exactly the converted
personal amounts of the transactions taking the income branch. -/
theorem reportFold_income (rate : ℚ) (currencyOf : Nat → String)
    (l : List Transaction) : ∀ acc : ReportAcc,
    (l.foldl (reportStep rate currencyOf) acc).total_income
      = acc.total_income
        + ((l.filter (stepIncomeTx rate currencyOf)).map
            (convertedPersonal rate currencyOf)).sum := by
  induction l with
  | nil => intro acc; simp
  | cons t l ih =>
    intro acc
    rw [List.foldl_cons, ih, List.filter_cons]
    by_cases h1 : 0 < convertedPersonal rate currencyOf t ∧ t.category ≠ "transfer"
    · rw [if_pos (show stepIncomeTx rate currencyOf t = true by
          simpa [stepIncomeTx] using h1),
        reportStep_income rate currencyOf acc t h1]
      simp only [List.map_cons, List.sum_cons]
      show acc.total_income + convertedPersonal rate currencyOf t + _ = _
      ring
    · rw [if_neg (show ¬stepIncomeTx rate currencyOf t = true by
          simpa [stepIncomeTx] using h1)]
      by_cases h2 : convertedPersonal rate currencyOf t < 0 ∧ t.category ≠ "transfer"
      · rw [reportStep_expense rate currencyOf acc t h1 h2]
      · rw [reportStep_skip rate currencyOf acc t h1 h2]

/-- Running the report loop adds, to the expense total, exactly the
converted personal amounts of the transactions taking the expense branch. -/
theorem reportFold_expenses (rate : ℚ) (currencyOf : Nat → String)
    (l : List Transaction) : ∀ acc : ReportAcc,
    (l.foldl (reportStep rate currencyOf) acc).total_expenses
      = acc.total_expenses
        + ((l.filter (stepExpenseTx rate currencyOf)).map
            (convertedPersonal rate currencyOf)).sum := by
  induction l with
  | nil => intro acc; simp
  | cons t l ih =>
    intro acc
    rw [List.foldl_cons, ih, List.filter_cons]
    by_cases h2 : convertedPersonal rate currencyOf t < 0 ∧ t.category ≠ "transfer"
    · have h1 : ¬(0 < convertedPersonal rate currencyOf t ∧ t.category ≠ "transfer") :=
        fun h1 => absurd h2.1 (not_lt.mpr (le_of_lt h1.1))
      rw [if_pos (show stepExpenseTx rate currencyOf t = true by
          simpa [stepExpenseTx] using h2),
        reportStep_expense rate currencyOf acc t h1 h2]
      simp only [List.map_cons, List.sum_cons]
      show acc.total_expenses + convertedPersonal rate currencyOf t + _ = _
      ring
    · rw [if_neg (show ¬stepExpenseTx rate currencyOf t = true by
          simpa [stepExpenseTx] using h2)]
      by_cases h1 : 0 < convertedPersonal rate currencyOf t ∧ t.category ≠ "transfer"
      · rw [reportStep_income rate currencyOf acc t h1]
      · rw [reportStep_skip rate currencyOf acc t h1 h2]

/-- Running the report loop adds, to the total of the per-category expense
table, exactly the absolute converted personal amounts of the transactions
taking the expense branch. -/
theorem reportFold_category_sum (rate : ℚ) (currencyOf : Nat → String)
    (l : List Transaction) : ∀ acc : ReportAcc,
    ((l.foldl (reportStep rate currencyOf) acc).expenses_by_category.map Prod.snd).sum
      = (acc.expenses_by_category.map Prod.snd).sum
        + ((l.filter (stepExpenseTx rate currencyOf)).map
            (fun t => |convertedPersonal rate currencyOf t|)).sum := by
  induction l with
  | nil => intro acc; simp
  | cons t l ih =>
    intro acc
    rw [List.foldl_cons, ih, List.filter_cons]
    by_cases h2 : convertedPersonal rate currencyOf t < 0 ∧ t.category ≠ "transfer"
    · have h1 : ¬(0 < convertedPersonal rate currencyOf t ∧ t.category ≠ "transfer") :=
        fun h1 => absurd h2.1 (not_lt.mpr (le_of_lt h1.1))
      rw [if_pos (show stepExpenseTx rate currencyOf t = true by
          simpa [stepExpenseTx] using h2),
        reportStep_expense rate currencyOf acc t h1 h2]
      simp only [List.map_cons, List.sum_cons]
      show (addToCategory acc.expenses_by_category t.category
          (abs (convertedPersonal rate currencyOf t)) |>.map Prod.snd).sum + _ = _
      rw [addToCategory_snd_sum]
      ring
    · rw [if_neg (show ¬stepExpenseTx rate currencyOf t = true by
          simpa [stepExpenseTx] using h2)]
      by_cases h1 : 0 < convertedPersonal rate currencyOf t ∧ t.category ≠ "transfer"
      · rw [reportStep_income rate currencyOf acc t h1]
      · rw [reportStep_skip rate currencyOf acc t h1 h2]

/-- Converting with a positive rate preserves strict positivity of the
personal amount. -/
theorem convertedPersonal_pos_iff (rate : ℚ) (hr : 0 < rate)
    (currencyOf : Nat → String) (t : Transaction) :
    (0 < convertedPersonal rate currencyOf t) ↔ 0 < t.personal_amount := by
  unfold convertedPersonal
  split
  · rw [convert_currency_inr_usd, lt_div_iff₀ hr, zero_mul]
  · exact Iff.rfl

/-- Converting with a positive rate preserves strict negativity of the
personal amount. -/
theorem convertedPersonal_neg_iff (rate : ℚ) (hr : 0 < rate)
    (currencyOf : Nat → String) (t : Transaction) :
    (convertedPersonal rate currencyOf t < 0) ↔ t.personal_amount < 0 := by
  unfold convertedPersonal
  split
  · rw [convert_currency_inr_usd, div_lt_iff₀ hr, zero_mul]
  · exact Iff.rfl

/-- With a positive rate, the loop's income branch condition coincides with
the spec's income predicate on stored personal amounts. -/
theorem stepIncomeTx_eq_spec (rate : ℚ) (hr : 0 < rate)
    (currencyOf : Nat → String) : stepIncomeTx rate currencyOf = specIncomeTx := by
  funext t
  exact decide_eq_decide.mpr
    (and_congr_left' (convertedPersonal_pos_iff rate hr currencyOf t))

/-- With a positive rate, the loop's expense branch condition coincides with
the spec's expense predicate on stored personal amounts. -/
theorem stepExpenseTx_eq_spec (rate : ℚ) (hr : 0 < rate)
    (currencyOf : Nat → String) : stepExpenseTx rate currencyOf = specExpenseTx := by
  funext t
  exact decide_eq_decide.mpr
    (and_congr_left' (convertedPersonal_neg_iff rate hr currencyOf t))

/-- Sum of a list of nonpositive rationals is nonpositive. -/
theorem list_sum_nonpos (l : List ℚ) (h : ∀ x ∈ l, x ≤ 0) : l.sum ≤ 0 := by
  induction l with
  | nil => simp
  | cons x l ih =>
    rw [List.sum_cons]
    have hx := h x (List.mem_cons_self x l)
    have hl := ih fun y hy => h y (List.mem_cons_of_mem x hy)
    linarith

/-- Absolute value of the sum of nonpositive rationals is the sum of their
absolute values. -/
theorem abs_list_sum_of_nonpos (l : List ℚ) (h : ∀ x ∈ l, x ≤ 0) :
    |l.sum| = (l.map fun x => |x|).sum := by
  induction l with
  | nil => simp
  | cons x l ih =>
    rw [List.sum_cons, List.map_cons, List.sum_cons]
    have hx := h x (List.mem_cons_self x l)
    have hmem : ∀ y ∈ l, y ≤ 0 := fun y hy => h y (List.mem_cons_of_mem x hy)
    have hl := list_sum_nonpos l hmem
    rw [abs_of_nonpos (by linarith : x + l.sum ≤ 0), abs_of_nonpos hx, ← ih hmem,
      abs_of_nonpos hl]
    ring

/-- C4: for a positive rate, the monthly report's income total is the sum of
the converted personal amounts of the month's non-transfer transactions with
positive personal amount; its expense total is the sum of the absolute
converted personal amounts of the month's non-transfer transactions with
negative personal amount, which also equals the total of the per-category
expense table; and a month with no matching transactions yields all-zero
aggregates rather than an error. -/
theorem c4_monthly_report (rate : ℚ) (hrate : 0 < rate)
    (currencyOf : Nat → String) (ts : List Transaction) (m : Nat) (y : Int) :
    ((monthly_report rate currencyOf ts m y).total_income
        = (((monthlyOf ts m y).filter specIncomeTx).map
            (convertedPersonal rate currencyOf)).sum)
    ∧ ((monthly_report rate currencyOf ts m y).total_expenses
        = (((monthlyOf ts m y).filter specExpenseTx).map
            (fun t => |convertedPersonal rate currencyOf t|)).sum)
    ∧ (((monthly_report rate currencyOf ts m y).expenses_by_category.map
          Prod.snd).sum
        = (monthly_report rate currencyOf ts m y).total_expenses)
    ∧ (monthlyOf ts m y = [] →
        (monthly_report rate currencyOf ts m y).total_income = 0
        ∧ (monthly_report rate currencyOf ts m y).total_expenses = 0
        ∧ (monthly_report rate currencyOf ts m y).net = 0
        ∧ (monthly_report rate currencyOf ts m y).expenses_by_category = []) := by
  have hI : (monthlyAcc rate currencyOf ts m y).total_income
      = (((monthlyOf ts m y).filter (stepIncomeTx rate currencyOf)).map
          (convertedPersonal rate currencyOf)).sum := by
    simpa [monthlyAcc] using
      reportFold_income rate currencyOf (monthlyOf ts m y) ⟨[], 0, 0⟩
  have hE : (monthlyAcc rate currencyOf ts m y).total_expenses
      = (((monthlyOf ts m y).filter (stepExpenseTx rate currencyOf)).map
          (convertedPersonal rate currencyOf)).sum := by
    simpa [monthlyAcc] using
      reportFold_expenses rate currencyOf (monthlyOf ts m y) ⟨[], 0, 0⟩
  have hC : ((monthlyAcc rate currencyOf ts m y).expenses_by_category.map
        Prod.snd).sum
      = (((monthlyOf ts m y).filter (stepExpenseTx rate currencyOf)).map
          (fun t => |convertedPersonal rate currencyOf t|)).sum := by
    simpa [monthlyAcc] using
      reportFold_category_sum rate currencyOf (monthlyOf ts m y) ⟨[], 0, 0⟩
  have hnonpos : ∀ x ∈ ((monthlyOf ts m y).filter
      (stepExpenseTx rate currencyOf)).map (convertedPersonal rate currencyOf),
      x ≤ 0 := by
    intro x hx
    obtain ⟨t, ht, rfl⟩ := List.mem_map.mp hx
    have hmem := (List.mem_filter.mp ht).2
    have hprop := of_decide_eq_true hmem
    exact le_of_lt hprop.1
  have habs : |(monthlyAcc rate currencyOf ts m y).total_expenses|
      = (((monthlyOf ts m y).filter (stepExpenseTx rate currencyOf)).map
          (fun t => |convertedPersonal rate currencyOf t|)).sum := by
    rw [hE, abs_list_sum_of_nonpos _ hnonpos, List.map_map]
    rfl
  refine ⟨?_, ?_, ?_, ?_⟩
  · show (monthlyAcc rate currencyOf ts m y).total_income = _
    rw [hI, stepIncomeTx_eq_spec rate hrate currencyOf]
  · show |(monthlyAcc rate currencyOf ts m y).total_expenses| = _
    rw [habs, stepExpenseTx_eq_spec rate hrate currencyOf]
  · show ((monthlyAcc rate currencyOf ts m y).expenses_by_category.map
        Prod.snd).sum = |(monthlyAcc rate currencyOf ts m y).total_expenses|
    rw [hC, habs]
  · intro hempty
    have hacc : monthlyAcc rate currencyOf ts m y = ⟨[], 0, 0⟩ := by
      rw [monthlyAcc, hempty]
      rfl
    refine ⟨?_, ?_, ?_, ?_⟩
    · show (monthlyAcc rate currencyOf ts m y).total_income = 0
      rw [hacc]
    · show |(monthlyAcc rate currencyOf ts m y).total_expenses| = 0
      rw [hacc]
      simp
    · show (monthlyAcc rate currencyOf ts m y).total_income
          + (monthlyAcc rate currencyOf ts m y).total_expenses = 0
      rw [hacc]
      norm_num
    · show (monthlyAcc rate currencyOf ts m y).expenses_by_category = []
      rw [hacc]

/-- Witness for C4 at the default rate on a two-transaction January 2024
history: one 100 income, one INR expense of personal share -83 converted to
-1 USD; and on an empty month. -/
theorem c4_monthly_report_witness :
    (monthly_report 83 (fun i => if i = 2 then "INR" else "USD")
        [⟨1, 100, none, "pay", "salary", ⟨739000, 2024, 1⟩⟩,
         ⟨2, -200, some (-83), "food", "dining", ⟨739005, 2024, 1⟩⟩] 1 2024).total_income
      = 100
    ∧ (monthly_report 83 (fun i => if i = 2 then "INR" else "USD")
        [⟨1, 100, none, "pay", "salary", ⟨739000, 2024, 1⟩⟩,
         ⟨2, -200, some (-83), "food", "dining", ⟨739005, 2024, 1⟩⟩] 1 2024).total_expenses
      = 1
    ∧ (monthly_report 83 (fun _ => "USD") [] 2 2024).total_income = 0
    ∧ (monthly_report 83 (fun _ => "USD") [] 2 2024).total_expenses = 0 := by
  have h1 := c4_monthly_report 83 (by norm_num) (fun i => if i = 2 then "INR" else "USD")
    [⟨1, 100, none, "pay", "salary", ⟨739000, 2024, 1⟩⟩,
     ⟨2, -200, some (-83), "food", "dining", ⟨739005, 2024, 1⟩⟩] 1 2024
  have h2 := (c4_monthly_report 83 (by norm_num) (fun _ => "USD") [] 2 2024).2.2.2
    (by rfl)
  have hs1 : (decide (("salary":String) = "transfer")) = false := by decide
  have hs2 : (decide (("dining":String) = "transfer")) = false := by decide
  have hu1 : (("USD":String) = "INR") = False := eq_false (by decide)
  have hu2 : (("INR":String) = "USD") = False := eq_false (by decide)
  refine ⟨?_, ?_, h2.1, h2.2.1⟩
  · rw [h1.1]
    norm_num [monthlyOf, specIncomeTx, convertedPersonal, convert_currency,
      Transaction.personal_amount, List.filter, hs1, hs2, hu1, hu2]
  · rw [h1.2.1]
    norm_num [monthlyOf, specExpenseTx, convertedPersonal, convert_currency,
      Transaction.personal_amount, List.filter, hs1, hs2, hu1, hu2]

end FinanceTracker
